import Mathlib

/-
Shallow embedding of the aicad backend (src/backend/app.py): the prompt
interpreter (parse_prompt / get_val), the project store (save_project,
load_project, list_projects) and the library-shape fetch path
(get_library_shape).  Python floats are modelled as exact rationals
(the decimal fragment of float()); the filesystem is modelled as a map
from (directory, filename) to file contents; the CAD kernel (cadquery)
is an external collaborator and is modelled by success predicates.
-/

/-- JSON values, as carried by request/response bodies and project.json.
Objects are association lists (Python dicts have unique keys; lookup is
first-match). Numbers are exact rationals. -/
inductive JVal where
  | null : JVal
  | bool (b : Bool) : JVal
  | num (q : ℚ) : JVal
  | str (s : String) : JVal
  | arr (xs : List JVal) : JVal
  | obj (kvs : List (String × JVal)) : JVal

/-- Lookup of a key in an association list (Python dict access). -/
def alookup : List (String × JVal) → String → Option JVal
  | [], _ => none
  | (k', v) :: rest, k => if k' = k then some v else alookup rest k

/-- Lookup of a key in a JSON object; `none` on a non-object or missing key. -/
def jObjLookup : JVal → String → Option JVal
  | .obj kvs, k => alookup kvs k
  | _, _ => none

/-- Value of a list of ASCII digit characters read in base 10. -/
def digitsVal (cs : List Char) : ℕ :=
  cs.foldl (fun a c => a * 10 + (c.toNat - 48)) 0

/-- Whether every character of the list is an ASCII digit. -/
def isDigits (cs : List Char) : Bool :=
  cs.all (·.isDigit)

/-- Split a character list at every occurrence of `sep` (pieces may be empty). -/
def splitOnChar (sep : Char) : List Char → List (List Char)
  | [] => [[]]
  | c :: cs =>
    match splitOnChar sep cs with
    | [] => [[]]
    | h :: t => if c = sep then [] :: h :: t else (c :: h) :: t

/-- Decimal mantissa: digits, optionally with one decimal point; at least one
digit overall ("12", "12.", ".5", "1.5" are accepted, "." and "" are not). -/
def decMantissa (cs : List Char) : Option ℚ :=
  match splitOnChar '.' cs with
  | [w] => if !w.isEmpty && isDigits w then some (digitsVal w : ℚ) else none
  | [w, f] =>
    if (!w.isEmpty || !f.isEmpty) && isDigits w && isDigits f then
      some ((digitsVal w : ℚ) + (digitsVal f : ℚ) / (10 : ℚ) ^ f.length)
    else none
  | _ => none

/-- Decimal exponent part: optional sign then at least one digit. -/
def decExponent (cs : List Char) : Option ℤ :=
  let (neg, ds) : Bool × List Char :=
    match cs with
    | '+' :: r => (false, r)
    | '-' :: r => (true, r)
    | r => (false, r)
  if !ds.isEmpty && isDigits ds then
    some (if neg then -(digitsVal ds : ℤ) else (digitsVal ds : ℤ))
  else none

/-- Model of Python `float(tok)` on a whitespace-free token, restricted to the
decimal fragment: optional sign, decimal mantissa, optional `e`/`E` exponent.
Values are exact rationals; inf/nan, digit-group underscores and non-ASCII
digits are outside the modelled fragment. `none` models ValueError. -/
def pyFloat (s : String) : Option ℚ :=
  let cs := s.data.map fun c => if c = 'E' then 'e' else c
  let (neg, body) : Bool × List Char :=
    match cs with
    | '+' :: r => (false, r)
    | '-' :: r => (true, r)
    | r => (false, r)
  let signed : ℚ → ℚ := fun v => if neg then -v else v
  match splitOnChar 'e' body with
  | [m] => (decMantissa m).map signed
  | [m, ex] => do
    let mv ← decMantissa m
    let ev ← decExponent ex
    pure (signed (mv * (10 : ℚ) ^ ev))
  | _ => none

/-- Split a character list at every character satisfying `p` (pieces may be
empty). -/
def splitOnPred (p : Char → Bool) : List Char → List (List Char)
  | [] => [[]]
  | c :: cs =>
    match splitOnPred p cs with
    | [] => [[]]
    | h :: t => if p c then [] :: h :: t else (c :: h) :: t

/-- Model of Python `s.lower()` (ASCII case mapping). -/
def strLower (s : String) : String :=
  String.mk (s.data.map Char.toLower)

/-- Model of Python `s.replace(pat, rep)` on character lists: replace every
non-overlapping occurrence of `pat`, scanning left to right. -/
def replaceAll (pat rep : List Char) : List Char → List Char
  | [] => []
  | c :: cs =>
    if pat.isEmpty = false ∧ (c :: cs).take pat.length = pat then
      rep ++ replaceAll pat rep (cs.drop (pat.length - 1))
    else
      c :: replaceAll pat rep cs
termination_by l => l.length
decreasing_by
  all_goals simp [List.length_drop]
  all_goals omega

/-- Model of Python `s.replace(pat, rep)`. -/
def strReplace (s pat rep : String) : String :=
  String.mk (replaceAll pat.data rep.data s.data)

/-- Python `prompt.split()`: split on whitespace, dropping empty pieces
(equivalently, split on whitespace runs). -/
def tokenize (s : String) : List String :=
  ((splitOnPred (fun c => c.isWhitespace) s.data).filter fun cs => !cs.isEmpty).map
    String.mk

/-- Python substring test `pat in s`. -/
def strIn (pat s : String) : Bool :=
  (List.range (s.data.length + 1)).any fun i =>
    decide ((s.data.drop i).take pat.data.length = pat.data)

/-- The helper `get_val(keyword, default)` of parse_prompt:
`float(parts[parts.index(keyword) + 1]) if keyword in parts else default`
wrapped in try/except returning the default (IndexError when the keyword is
the last token, ValueError when the next token is not a float). -/
def get_val (parts : List String) (keyword : String) (d : ℚ) : ℚ :=
  if keyword ∈ parts then
    match parts[parts.indexOf keyword + 1]? with
    | some tok => (pyFloat tok).getD d
    | none => d
  else d

/-- The prompt interpreter `parse_prompt`: lowercase, tokenize, extract the
rotation keywords, apply the orientation-keyword if/elif, then pick the shape
by substring priority cylinder → sphere → box and assemble the record. -/
def parse_prompt (prompt : String) : JVal :=
  let p := strLower prompt
  let parts := tokenize p
  let rot_x := get_val parts "rotx" 0
  let rot_y := get_val parts "roty" 0
  let rot_z := get_val parts "rotz" 0
  let rots : ℚ × ℚ × ℚ :=
    if strIn "lying" p || strIn "horizontal" p then (rot_x, 90, rot_z)
    else if strIn "upright" p || strIn "vertical" p || strIn "standing" p then
      (0, rot_y, rot_z)
    else (rot_x, rot_y, rot_z)
  let rotArr : JVal := .arr [.num rots.1, .num rots.2.1, .num rots.2.2]
  if strIn "cylinder" p then
    .obj [("shape", .str "cylinder"),
          ("radius", .num (get_val parts "radius" 5)),
          ("height", .num (get_val parts "height" 10)),
          ("rotation", rotArr)]
  else if strIn "sphere" p then
    .obj [("shape", .str "sphere"),
          ("radius", .num (get_val parts "radius" 5)),
          ("rotation", rotArr)]
  else
    .obj [("shape", .str "box"),
          ("width", .num (get_val parts "width" 10)),
          ("depth", .num (get_val parts "depth" 10)),
          ("height", .num (get_val parts "height" 10)),
          ("rotation", rotArr)]

/-- Contents of a file in the model filesystem: a STEP solid as exported by
the kernel for given shape parameters, or a JSON document. -/
inductive FileContent where
  | stepFile (params : JVal)
  | jsonFile (doc : JVal)

/-- The filesystem, as a map from (directory path, file name) to contents:
the source always addresses files as `Path(dir) / filename`. -/
def FS : Type := String → String → Option FileContent

/-- Create or wholesale-overwrite a file. -/
def fsWrite (fs : FS) (d f : String) (c : FileContent) : FS :=
  fun d' f' => if d' = d ∧ f' = f then some c else fs d' f'

/-- Errors surfaced by the modelled endpoints: uncaught Python exceptions
(KeyError, FileNotFoundError from open(), a cadquery build/export failure,
a json.load failure) and FastAPI HTTPException(status_code, detail). -/
inductive PyErr where
  | keyError (k : String)
  | kernelError : PyErr
  | fileNotFoundError (dir f : String)
  | jsonDecodeError : PyErr
  | httpException (status : ℕ) (detail : String)
deriving DecidableEq

/-- The module-level `projects_dir = Path("data/projects")`. -/
def projects_dir : String := "data/projects"

/-- The f-string `Path(f"{projects_dir}/{project.name}")`. -/
def projectDir (name : String) : String := projects_dir ++ "/" ++ name

/-- The f-string `f"shape_{idx}.step"`. -/
def stepName (idx : ℕ) : String := "shape_" ++ toString idx ++ ".step"

/-- The pydantic request model ProjectFile: a name and a list of shape dicts
(each dict modelled as an association list with unique keys). -/
structure ProjectFile where
  name : String
  shapes : List (List (String × JVal))

/-- The metadata entry save_project appends for the shape at index `idx`:
its params value `ps` (from the mandatory "params" key), position, rotation
and prompt via dict .get with their defaults, and the generated file name. -/
def shapeEntry (idx : ℕ) (sh : List (String × JVal)) (ps : JVal) : JVal :=
  .obj [("params", ps),
        ("position", (alookup sh "position").getD (.arr [.num 0, .num 0, .num 0])),
        ("rotation", (alookup sh "rotation").getD (.arr [.num 0, .num 0, .num 0])),
        ("prompt", (alookup sh "prompt").getD (.str "")),
        ("brep_file", .str (stepName idx))]

/-- The body of save_project's loop from index `idx` on: for each shape dict
read shape_data["params"] (KeyError when absent), build the solid and export
it as STEP via the external kernel — modelled by the success predicate
`buildOk`; a False result models generate_cad or exportStep raising, which
aborts the loop — then record the metadata entry. -/
def saveShapes (buildOk : JVal → Bool) (dir : String) :
    ℕ → List (List (String × JVal)) → FS → FS × Except PyErr (List JVal)
  | _, [], fs => (fs, .ok [])
  | idx, sh :: rest, fs =>
    match alookup sh "params" with
    | none => (fs, .error (.keyError "params"))
    | some ps =>
      if buildOk ps then
        match saveShapes buildOk dir (idx + 1) rest
            (fsWrite fs dir (stepName idx) (.stepFile ps)) with
        | (fs', .ok entries) => (fs', .ok (shapeEntry idx sh ps :: entries))
        | (fs', .error e) => (fs', .error e)
      else (fs, .error .kernelError)

/-- POST /project/save: build and export every shape in input order as
shape_<idx>.step inside the (created or reused) project directory, then — only
after the loop finishes — write project.json with the collected metadata and
return success with the directory path. -/
def save_project (buildOk : JVal → Bool) (fs : FS) (project : ProjectFile) :
    FS × Except PyErr JVal :=
  let dir := projectDir project.name
  match saveShapes buildOk dir 0 project.shapes fs with
  | (fs', .ok entries) =>
    (fsWrite fs' dir "project.json"
        (.jsonFile (.obj [("name", .str project.name), ("shapes", .arr entries)])),
      .ok (.obj [("success", .bool true), ("path", .str dir)]))
  | (fs', .error e) => (fs', .error e)

/-- POST /project/load: open <project dir>/project.json — an uncaught
FileNotFoundError when the directory or the file is missing — run json.load
on it, and return its "shapes" list verbatim under {"success": True}. -/
def load_project (fs : FS) (project_name : String) : Except PyErr JVal :=
  match fs (projectDir project_name) "project.json" with
  | none => .error (.fileNotFoundError (projectDir project_name) "project.json")
  | some (.stepFile _) => .error .jsonDecodeError
  | some (.jsonFile doc) =>
    match jObjLookup doc "shapes" with
    | none => .error (.keyError "shapes")
    | some shapes => .ok (.obj [("success", .bool true), ("shapes", shapes)])

/-- An entry of the projects root directory as iterdir yields it: a name,
whether it is a directory, and whether it contains a project.json file. -/
structure DirEntry where
  name : String
  isDir : Bool
  hasProjectJson : Bool

/-- GET /projects/list: when the projects root exists (`some entries`, in
arbitrary iteration order), collect the names of those entries that are
directories containing project.json, and sort ascending (list.sort; any
sorting algorithm yields the same list over a linear order); a missing root
yields the empty list. -/
def list_projects (root : Option (List DirEntry)) : List String :=
  match root with
  | none => []
  | some entries =>
    List.insertionSort (· ≤ ·)
      ((entries.filter fun e => e.isDir && e.hasProjectJson).map DirEntry.name)

/-- pathlib Path(name).suffix for a bare (separator-free) filename: the
part starting at the last dot, provided that dot is neither the first nor the
last character; otherwise the empty string. -/
def pathSuffix (name : String) : String :=
  let cs := name.data
  match ((List.range cs.length).filter fun i => cs[i]? = some '.').getLast? with
  | some i => if 0 < i ∧ i < cs.length - 1 then String.mk (cs.drop i) else ""
  | none => ""

/-- GET /library/shapes/{filename}: the path-traversal guard (400), then the
existence check (404), then the extension check (400), then the STEP→STL
conversion inside try/except — modelled by the success predicate `kernelOk`,
a False result modelling any cadquery import/export exception, caught and
surfaced as a 500 — returning the derived STL file name on success.
`libExists` models `(LIBRARY_DIR / filename).exists()`. -/
def get_library_shape (libExists kernelOk : String → Bool) (filename : String) :
    Except PyErr String :=
  if strIn ".." filename || strIn "/" filename || strIn "\\" filename then
    .error (.httpException 400 "Invalid filename")
  else if libExists filename = false then
    .error (.httpException 404 "Shape not found")
  else if strLower (pathSuffix filename) ≠ ".step" then
    .error (.httpException 400 "Only STEP files are supported")
  else if kernelOk filename then
    .ok ("library_" ++ strReplace filename ".step" ".stl")
  else
    .error (.httpException 500 "Failed to convert shape")

section HelperLemmas

lemma indexOf_cons_self_str (a : String) (l : List String) : (a :: l).indexOf a = 0 := by
  simp [List.indexOf, List.findIdx_cons]

lemma indexOf_cons_ne_str (a b : String) (l : List String) (h : b ≠ a) :
    (b :: l).indexOf a = l.indexOf a + 1 := by
  simp [List.indexOf, List.findIdx_cons, beq_eq_false_iff_ne.mpr h]

/-- If `i` is the first index at which `k` occurs, `indexOf` returns `i`. -/
lemma indexOf_eq_of_first (k : String) :
    ∀ (l : List String) (i : ℕ), (∀ j, j < i → l[j]? ≠ some k) → l[i]? = some k →
      l.indexOf k = i := by
  intro l
  induction l with
  | nil => intro i _ hi; simp at hi
  | cons a t ih =>
    intro i hfirst hi
    cases i with
    | zero =>
      rw [List.getElem?_cons_zero] at hi
      have hak : a = k := by injection hi
      rw [hak]
      exact indexOf_cons_self_str k t
    | succ n =>
      have ha : a ≠ k := by
        intro hak
        exact hfirst 0 (Nat.succ_pos n) (by rw [List.getElem?_cons_zero, hak])
      rw [List.getElem?_cons_succ] at hi
      rw [indexOf_cons_ne_str k a t ha]
      have := ih n (fun j hj => by
        have := hfirst (j + 1) (Nat.succ_lt_succ hj)
        rwa [List.getElem?_cons_succ] at this) hi
      omega

/-- get_val yields the default or the parse of a token of the prompt. -/
lemma get_val_cases (parts : List String) (k : String) (d : ℚ) :
    get_val parts k d = d ∨
      ∃ tok q, tok ∈ parts ∧ pyFloat tok = some q ∧ get_val parts k d = q := by
  rw [get_val]
  split
  · rcases htok : parts[parts.indexOf k + 1]? with _ | tok
    · exact Or.inl rfl
    · rcases hq : pyFloat tok with _ | q
      · exact Or.inl (by simp [hq])
      · exact Or.inr ⟨tok, q, List.getElem?_mem htok, hq, by simp [hq]⟩
  · exact Or.inl rfl

lemma get_val_nonneg (parts : List String) (k : String) (d : ℚ) (hd : 0 ≤ d)
    (h : ∀ tok ∈ parts, 0 ≤ (pyFloat tok).getD 0) : 0 ≤ get_val parts k d := by
  rcases get_val_cases parts k d with heq | ⟨tok, q, hmem, hq, heq⟩
  · rwa [heq]
  · rw [heq]
    have := h tok hmem
    rwa [hq, Option.getD_some] at this

lemma alookup_mem : ∀ (kvs : List (String × JVal)) (k : String) (v : JVal),
    alookup kvs k = some v → (k, v) ∈ kvs := by
  intro kvs k v
  induction kvs with
  | nil => intro h; simp [alookup] at h
  | cons p rest ih =>
    rcases p with ⟨k', v'⟩
    intro h
    simp only [alookup] at h
    by_cases hk : k' = k
    · rw [if_pos hk] at h
      injection h with h2
      rw [hk, h2]
      exact List.mem_cons_self _ _
    · rw [if_neg hk] at h
      exact List.mem_cons_of_mem _ (ih h)

/-- If every value of an object that is a number is non-negative, then every
numeric field looked up in it is non-negative. -/
lemma obj_num_values_nonneg (kvs : List (String × JVal))
    (hv : ∀ p ∈ kvs, ∀ q : ℚ, p.2 = JVal.num q → 0 ≤ q) :
    ∀ k q, jObjLookup (.obj kvs) k = some (.num q) → 0 ≤ q := by
  intro k q hk
  have hmem := alookup_mem kvs k _ (by simpa [jObjLookup] using hk)
  exact hv _ hmem q rfl

end HelperLemmas

/-- C4: keyword-value extraction. For every prompt, keyword `k` and default
`d`: `get_val` locates the first token equal to `k` and parses the token
immediately after it as a float; if `k` is absent, `k` is the last token, or
the next token does not parse, the extracted value is the default `d`
(silently, `get_val` being total); if the next token parses as `q`, the
extracted value is `q`. -/
theorem get_val_keyword_extraction (prompt k : String) (d : ℚ)
    (parts : List String) (hparts : parts = tokenize (strLower prompt)) :
    (k ∉ parts → get_val parts k d = d) ∧
    (∀ i : ℕ, (∀ j, j < i → parts[j]? ≠ some k) → parts[i]? = some k →
      ((parts[i + 1]? = none → get_val parts k d = d) ∧
       (∀ tok, parts[i + 1]? = some tok →
         ((pyFloat tok = none → get_val parts k d = d) ∧
          (∀ q, pyFloat tok = some q → get_val parts k d = q))))) := by
  constructor
  · intro hnm
    rw [get_val, if_neg hnm]
  · intro i hfirst hi
    have hmem : k ∈ parts := List.getElem?_mem hi
    have hidx : parts.indexOf k = i := indexOf_eq_of_first k parts i hfirst hi
    refine ⟨?_, ?_⟩
    · intro hnone
      rw [get_val, if_pos hmem, hidx, hnone]
    · intro tok htok
      rw [get_val, if_pos hmem, hidx, htok]
      exact ⟨fun hf => by simp [hf], fun q hq => by simp [hq]⟩

/-- Witness for C4: in "cylinder radius 7", the keyword radius (first
occurrence at index 1) is followed by "7", so the extracted value is 7. -/
theorem get_val_keyword_extraction_witness :
    get_val (tokenize (strLower "cylinder radius 7")) "radius" 5 = 7 := by
  have h := get_val_keyword_extraction "cylinder radius 7" "radius" 5
    (tokenize (strLower "cylinder radius 7")) rfl
  exact ((h.2 1 (by decide) (by decide)).2 "7" (by decide)).2 7 (by decide)

/-- C2 counterexample: the interpreter passes negative value tokens through,
so not every numeric field of the returned record is non-negative: the prompt
"box width -5" yields width = -5. -/
theorem parse_prompt_negative_field_counterexample :
    ¬ (∀ q : ℚ, jObjLookup (parse_prompt "box width -5") "width" = some (.num q) →
        0 ≤ q) := by
  intro h
  have h5 := h (-5) rfl
  norm_num at h5

/-- C2 (amended): every numeric field (including the rotation components) of
the record returned by parse_prompt is non-negative PROVIDED every prompt
token that parses as a float is non-negative.  The defaults (0, 5, 10) and
the forced orientation values (90 and 0) are non-negative, but a negative
value token such as "-5" is passed through to the field unchanged, which is
what the counterexample exhibits. -/
theorem parse_prompt_fields_nonneg (prompt : String)
    (h : ∀ tok ∈ tokenize (strLower prompt), 0 ≤ (pyFloat tok).getD 0) :
    (∀ k q, jObjLookup (parse_prompt prompt) k = some (.num q) → 0 ≤ q) ∧
    (∀ l, jObjLookup (parse_prompt prompt) "rotation" = some (.arr l) →
      ∀ q, JVal.num q ∈ l → 0 ≤ q) := by
  have hgv : ∀ (kw : String) (d : ℚ), 0 ≤ d →
      0 ≤ get_val (tokenize (strLower prompt)) kw d :=
    fun kw d hd => get_val_nonneg _ kw d hd h
  simp only [parse_prompt]
  set R := (if strIn "lying" (strLower prompt) || strIn "horizontal" (strLower prompt) then
      (get_val (tokenize (strLower prompt)) "rotx" 0, (90 : ℚ),
        get_val (tokenize (strLower prompt)) "rotz" 0)
    else if strIn "upright" (strLower prompt) || strIn "vertical" (strLower prompt) ||
        strIn "standing" (strLower prompt) then
      ((0 : ℚ), get_val (tokenize (strLower prompt)) "roty" 0,
        get_val (tokenize (strLower prompt)) "rotz" 0)
    else
      (get_val (tokenize (strLower prompt)) "rotx" 0,
        get_val (tokenize (strLower prompt)) "roty" 0,
        get_val (tokenize (strLower prompt)) "rotz" 0)) with hR
  have hR1 : 0 ≤ R.1 := by
    rw [hR]; split_ifs
    · exact hgv "rotx" 0 le_rfl
    · exact le_rfl
    · exact hgv "rotx" 0 le_rfl
  have hR2 : 0 ≤ R.2.1 := by
    rw [hR]; split_ifs
    · norm_num
    · exact hgv "roty" 0 le_rfl
    · exact hgv "roty" 0 le_rfl
  have hR3 : 0 ≤ R.2.2 := by
    rw [hR]; split_ifs <;> exact hgv "rotz" 0 le_rfl
  split_ifs <;>
  · constructor
    · refine obj_num_values_nonneg _ ?_
      intro p hp q h2
      fin_cases hp <;> simp only at h2 <;>
        first
          | exact JVal.noConfusion h2
          | (injection h2 with h3; rw [← h3])
      all_goals
        first
          | exact hgv "radius" 5 (by norm_num)
          | exact hgv "height" 10 (by norm_num)
          | exact hgv "width" 10 (by norm_num)
          | exact hgv "depth" 10 (by norm_num)
    · intro l hl q hql
      simp only [jObjLookup, alookup, if_true, reduceIte] at hl
      injection hl with hl2
      injection hl2 with hl3
      rw [← hl3] at hql
      simp only [List.mem_cons, List.not_mem_nil, or_false] at hql
      rcases hql with h4 | h4 | h4 <;> (injection h4 with h5; rw [h5]) <;> assumption

/-- Witness for C2 (amended): the tokens of "cylinder radius 7" are all either
non-floats or non-negative floats, and its radius field 7 is non-negative. -/
theorem parse_prompt_fields_nonneg_witness : 0 ≤ (7 : ℚ) :=
  (parse_prompt_fields_nonneg "cylinder radius 7" (by decide)).1 "radius" 7 rfl

/-- C3 counterexample: the orientation keywords form an if/elif chain, so a
prompt containing both "lying" and "upright" takes only the lying branch:
"upright lying rotx 45" returns rotx = 45 and not 0, refuting the claim that
every prompt containing "upright" comes back with rotx = 0. -/
theorem parse_prompt_upright_counterexample :
    ¬ (∀ prompt : String, strIn "upright" (strLower prompt) = true →
        ∀ x y z : ℚ,
          jObjLookup (parse_prompt prompt) "rotation" =
            some (.arr [.num x, .num y, .num z]) → x = 0) := by
  intro h
  have h45 := h "upright lying rotx 45" (by decide) 45 90 0 rfl
  norm_num at h45

/-- C3 (amended): if the prompt contains "lying" or "horizontal" then
roty = 90 regardless of any roty keyword value parsed earlier; if it contains
"upright", "vertical" or "standing" AND does not contain "lying"/"horizontal"
(the branch is an elif), then rotx = 0 regardless of any rotx keyword value. -/
theorem parse_prompt_orientation (prompt : String) :
    ((strIn "lying" (strLower prompt) || strIn "horizontal" (strLower prompt)) = true →
      jObjLookup (parse_prompt prompt) "rotation" =
        some (.arr [.num (get_val (tokenize (strLower prompt)) "rotx" 0), .num 90,
          .num (get_val (tokenize (strLower prompt)) "rotz" 0)])) ∧
    ((strIn "upright" (strLower prompt) || strIn "vertical" (strLower prompt) ||
        strIn "standing" (strLower prompt)) = true →
      (strIn "lying" (strLower prompt) || strIn "horizontal" (strLower prompt)) = false →
      jObjLookup (parse_prompt prompt) "rotation" =
        some (.arr [.num 0, .num (get_val (tokenize (strLower prompt)) "roty" 0),
          .num (get_val (tokenize (strLower prompt)) "rotz" 0)])) := by
  constructor
  · intro h1
    simp only [parse_prompt, h1, if_true]
    split_ifs <;> simp [jObjLookup, alookup]
  · intro h2 h1
    simp only [parse_prompt, h1, h2, if_true, Bool.false_eq_true, if_false]
    split_ifs <;> simp [jObjLookup, alookup]

/-- Witness for C3 (amended): spec example "cylinder radius 7 height 20
lying" forces roty = 90 (rotx and rotz keep their extracted values). -/
theorem parse_prompt_orientation_witness :
    jObjLookup (parse_prompt "cylinder radius 7 height 20 lying") "rotation" =
      some (.arr
        [.num (get_val (tokenize (strLower "cylinder radius 7 height 20 lying")) "rotx" 0),
         .num 90,
         .num (get_val (tokenize (strLower "cylinder radius 7 height 20 lying")) "rotz" 0)]) :=
  (parse_prompt_orientation "cylinder radius 7 height 20 lying").1 (by decide)

/-- C5: shape-kind selection is a substring containment test on the full
lowercased prompt in fixed priority order: cylinder first, then sphere, then
box as the fallback, even when several shape keywords are present. -/
theorem parse_prompt_shape_priority (prompt : String) :
    (strIn "cylinder" (strLower prompt) = true →
      jObjLookup (parse_prompt prompt) "shape" = some (.str "cylinder")) ∧
    (strIn "cylinder" (strLower prompt) = false →
      strIn "sphere" (strLower prompt) = true →
      jObjLookup (parse_prompt prompt) "shape" = some (.str "sphere")) ∧
    (strIn "cylinder" (strLower prompt) = false →
      strIn "sphere" (strLower prompt) = false →
      jObjLookup (parse_prompt prompt) "shape" = some (.str "box")) := by
  refine ⟨fun h1 => ?_, fun h1 h2 => ?_, fun h1 h2 => ?_⟩ <;>
    simp [parse_prompt, h1, jObjLookup, alookup] <;>
    simp [h2, jObjLookup, alookup]

/-- Witness for C5: spec example "cylinder sphere box" resolves to cylinder
(first-match priority regardless of token order). -/
theorem parse_prompt_shape_priority_witness :
    jObjLookup (parse_prompt "cylinder sphere box") "shape" =
      some (.str "cylinder") :=
  (parse_prompt_shape_priority "cylinder sphere box").1 (by decide)

/-- C6: the interpreter is total (the embedding is a total function, mirroring
that every fallible operation in the Python sits inside try/except): for every
prompt it returns a complete record with exactly one shape kind — its key list
is exactly that of one of cylinder/sphere/box — the "shape" key holding one of
the three kind names, every non-shape, non-rotation key holding a numeric
value, and a 3-component numeric rotation. -/
theorem parse_prompt_total_record (prompt : String) :
    ∃ kvs : List (String × JVal), parse_prompt prompt = .obj kvs ∧
      (kvs.map Prod.fst = ["shape", "radius", "height", "rotation"] ∨
       kvs.map Prod.fst = ["shape", "radius", "rotation"] ∨
       kvs.map Prod.fst = ["shape", "width", "depth", "height", "rotation"]) ∧
      (∃ s, alookup kvs "shape" = some (.str s) ∧
        (s = "cylinder" ∨ s = "sphere" ∨ s = "box")) ∧
      (∀ k, k ≠ "shape" → k ≠ "rotation" → k ∈ kvs.map Prod.fst →
        ∃ q : ℚ, alookup kvs k = some (.num q)) ∧
      (∃ x y z : ℚ, alookup kvs "rotation" = some (.arr [.num x, .num y, .num z])) := by
  simp only [parse_prompt]
  split_ifs <;>
  · refine ⟨_, rfl, ?_, ?_, ?_, ?_⟩
    · first
        | exact Or.inl rfl
        | exact Or.inr (Or.inl rfl)
        | exact Or.inr (Or.inr rfl)
    · first
        | exact ⟨"cylinder", rfl, Or.inl rfl⟩
        | exact ⟨"sphere", rfl, Or.inr (Or.inl rfl)⟩
        | exact ⟨"box", rfl, Or.inr (Or.inr rfl)⟩
    · intro k hks hkr hk
      simp only [List.map_cons, List.map_nil] at hk
      fin_cases hk <;>
        first
          | exact absurd rfl hks
          | exact absurd rfl hkr
          | exact ⟨_, rfl⟩
    · exact ⟨_, _, _, rfl⟩

section StoreLemmas

lemma fsWrite_same (fs : FS) (d f : String) (c : FileContent) :
    fsWrite fs d f c d f = some c := by
  simp [fsWrite]

lemma fsWrite_ne (fs : FS) (d f : String) (c : FileContent) (d' f' : String)
    (h : ¬(d' = d ∧ f' = f)) : fsWrite fs d f c d' f' = fs d' f' := by
  simp only [fsWrite, if_neg h]

lemma stepName_ne_projectJson (idx : ℕ) : stepName idx ≠ "project.json" := by
  intro h
  have hd : (stepName idx).data = "project.json".data := congrArg String.data h
  rw [stepName, String.data_append, String.data_append] at hd
  have h1 : "shape_".data = 's' :: "hape_".data := rfl
  rw [h1, List.cons_append, List.cons_append] at hd
  have h2 : "project.json".data = 'p' :: "roject.json".data := rfl
  rw [h2] at hd
  injection hd with h3 _
  exact absurd h3 (by decide)

/-- The save loop touches only shape_<i>.step files, never a project.json. -/
lemma saveShapes_preserves_json (buildOk : JVal → Bool) (dir : String) :
    ∀ (shapes : List (List (String × JVal))) (idx : ℕ) (fs : FS) (d : String),
      (saveShapes buildOk dir idx shapes fs).1 d "project.json" =
        fs d "project.json" := by
  intro shapes
  induction shapes with
  | nil => intro idx fs d; rfl
  | cons sh rest ih =>
    intro idx fs d
    rw [saveShapes]
    rcases hps : alookup sh "params" with _ | ps
    · rfl
    · rcases hbuild : buildOk ps with _ | _
      · simp [hbuild]
      · simp only [hbuild, if_true]
        rcases hres : saveShapes buildOk dir (idx + 1) rest
            (fsWrite fs dir (stepName idx) (.stepFile ps)) with ⟨fs', r⟩
        have hpres := ih (idx + 1) (fsWrite fs dir (stepName idx) (.stepFile ps)) d
        rw [hres] at hpres
        have hwr : fsWrite fs dir (stepName idx) (.stepFile ps) d "project.json" =
            fs d "project.json" :=
          fsWrite_ne _ _ _ _ _ _ fun hc =>
            stepName_ne_projectJson idx (hc.2.symm)
        cases r <;> simpa [hwr] using hpres

end StoreLemmas

/-- C7: when the project directory or its project.json is missing (in the
(directory, filename)-keyed model both amount to the file lookup returning
none), load_project fails with exactly the file-not-found error — the
NotFound case of the error taxonomy, surfaced as the uncaught Python
FileNotFoundError from open() — and with no other error kind. -/
theorem load_project_missing_not_found (fs : FS) (name : String)
    (h : fs (projectDir name) "project.json" = none) :
    load_project fs name =
      .error (.fileNotFoundError (projectDir name) "project.json") := by
  simp [load_project, h]

/-- Witness for C7: loading from an empty filesystem fails with NotFound. -/
theorem load_project_missing_not_found_witness :
    load_project (fun _ _ => none) "demo" =
      .error (.fileNotFoundError (projectDir "demo") "project.json") :=
  load_project_missing_not_found (fun _ _ => none) "demo" rfl

/-- C9: a filename containing ".." or "/" or "\" is rejected with the 400
InvalidInput error before any filesystem access: the result is that error
for every state of the library directory and of the conversion kernel
(both are universally quantified and unused). -/
theorem get_library_shape_rejects_traversal (libExists kernelOk : String → Bool)
    (filename : String)
    (h : strIn ".." filename = true ∨ strIn "/" filename = true ∨
      strIn "\\" filename = true) :
    get_library_shape libExists kernelOk filename =
      .error (.httpException 400 "Invalid filename") := by
  rcases h with h | h | h <;> simp [get_library_shape, h]

/-- Witness for C9: "../secret.step" is rejected even when the library
reports every file as existing. -/
theorem get_library_shape_rejects_traversal_witness :
    get_library_shape (fun _ => true) (fun _ => true) "../secret.step" =
      .error (.httpException 400 "Invalid filename") :=
  get_library_shape_rejects_traversal (fun _ => true) (fun _ => true)
    "../secret.step" (Or.inl (by decide))

/-- C10: project.json is written only after every shape of the loop has been
built and exported: whenever save_project returns an error — a missing
"params" key or a kernel build/export failure at any index — no project.json
anywhere (in particular the previously saved metadata document of that
project) has been touched, even though shape_<i>.step files with smaller
index may already have been overwritten. -/
theorem save_project_failure_keeps_metadata (buildOk : JVal → Bool) (fs : FS)
    (P : ProjectFile) (e : PyErr)
    (h : (save_project buildOk fs P).2 = .error e) (d : String) :
    (save_project buildOk fs P).1 d "project.json" = fs d "project.json" := by
  have hpres := saveShapes_preserves_json buildOk (projectDir P.name) P.shapes 0 fs d
  rcases hres : saveShapes buildOk (projectDir P.name) 0 P.shapes fs with ⟨fs', r⟩
  rw [hres] at hpres
  simp only [save_project, hres] at h ⊢
  cases r with
  | ok entries => simp at h
  | error e' => simpa using hpres

/-- A filesystem already holding a metadata document for project "p". -/
def demoFS : FS :=
  fun d f =>
    if d = projectDir "p" ∧ f = "project.json" then some (.jsonFile (.str "old"))
    else none

/-- Witness for C10: saving project "p" with a failing kernel leaves the
existing project.json of "p" unchanged. -/
theorem save_project_failure_keeps_metadata_witness :
    (save_project (fun _ => false) demoFS ⟨"p", [[("params", .null)]]⟩).1
      (projectDir "p") "project.json" = some (.jsonFile (.str "old")) := by
  rw [save_project_failure_keeps_metadata (fun _ => false) demoFS
    ⟨"p", [[("params", .null)]]⟩ .kernelError rfl (projectDir "p")]
  rfl

/-- C8: for every state of the projects root, list_projects returns exactly
the names of the immediate sub-directory entries that contain a project.json
metadata document — stated as a permutation of the filtered name list plus
sortedness, which over the linear string order determines the list uniquely,
plus the membership characterization — sorted lexicographically ascending;
entries lacking the document (or that are not directories) are omitted
without any error. -/
theorem list_projects_sorted_filtered (entries : List DirEntry) :
    (list_projects (some entries)).Perm
        ((entries.filter fun e => e.isDir && e.hasProjectJson).map DirEntry.name) ∧
    (list_projects (some entries)).Sorted (· ≤ ·) ∧
    (∀ x, x ∈ list_projects (some entries) ↔
      ∃ e ∈ entries, e.isDir = true ∧ e.hasProjectJson = true ∧ e.name = x) ∧
    list_projects none = [] := by
  refine ⟨List.perm_insertionSort _ _, List.sorted_insertionSort _ _, ?_, rfl⟩
  intro x
  rw [show list_projects (some entries) =
      List.insertionSort (· ≤ ·)
        ((entries.filter fun e => e.isDir && e.hasProjectJson).map DirEntry.name)
    from rfl]
  rw [(List.perm_insertionSort (· ≤ ·)
    ((entries.filter fun e => e.isDir && e.hasProjectJson).map DirEntry.name)).mem_iff]
  simp only [List.mem_map, List.mem_filter, Bool.and_eq_true]
  constructor
  · rintro ⟨e, ⟨he, hd, hj⟩, hn⟩
    exact ⟨e, he, hd, hj, hn⟩
  · rintro ⟨e, he, hd, hj, hn⟩
    exact ⟨e, ⟨he, hd, hj⟩, hn⟩

section RoundTripLemmas

/-- The metadata entries a fully successful save produces from index `idx`
on (the "params" lookup succeeds for every shape when the save succeeds). -/
def savedEntries : ℕ → List (List (String × JVal)) → List JVal
  | _, [] => []
  | idx, sh :: rest =>
    shapeEntry idx sh ((alookup sh "params").getD .null) :: savedEntries (idx + 1) rest

lemma savedEntries_length :
    ∀ (shapes : List (List (String × JVal))) (idx : ℕ),
      (savedEntries idx shapes).length = shapes.length := by
  intro shapes
  induction shapes with
  | nil => intro idx; rfl
  | cons sh rest ih => intro idx; simp [savedEntries, ih]

lemma savedEntries_get :
    ∀ (shapes : List (List (String × JVal))) (idx i : ℕ)
      (hi : i < shapes.length) (hi' : i < (savedEntries idx shapes).length),
      (savedEntries idx shapes).get ⟨i, hi'⟩ =
        shapeEntry (idx + i) (shapes.get ⟨i, hi⟩)
          ((alookup (shapes.get ⟨i, hi⟩) "params").getD .null) := by
  intro shapes
  induction shapes with
  | nil => intro idx i hi; simp at hi
  | cons sh rest ih =>
    intro idx i hi hi'
    cases i with
    | zero => rfl
    | succ n =>
      have hn : n < rest.length := by simpa using hi
      have hn' : n < (savedEntries (idx + 1) rest).length := by
        simpa [savedEntries] using hi'
      have hstep := ih (idx + 1) n hn hn'
      simp only [savedEntries, List.get_cons_succ]
      rw [hstep]
      congr 1
      omega

lemma shapeEntry_params (idx : ℕ) (sh : List (String × JVal)) (ps : JVal) :
    jObjLookup (shapeEntry idx sh ps) "params" = some ps := rfl

lemma shapeEntry_position (idx : ℕ) (sh : List (String × JVal)) (ps : JVal) :
    jObjLookup (shapeEntry idx sh ps) "position" =
      some ((alookup sh "position").getD (.arr [.num 0, .num 0, .num 0])) := rfl

lemma shapeEntry_rotation (idx : ℕ) (sh : List (String × JVal)) (ps : JVal) :
    jObjLookup (shapeEntry idx sh ps) "rotation" =
      some ((alookup sh "rotation").getD (.arr [.num 0, .num 0, .num 0])) := rfl

lemma shapeEntry_prompt (idx : ℕ) (sh : List (String × JVal)) (ps : JVal) :
    jObjLookup (shapeEntry idx sh ps) "prompt" =
      some ((alookup sh "prompt").getD (.str "")) := rfl

lemma shapeEntry_brep (idx : ℕ) (sh : List (String × JVal)) (ps : JVal) :
    jObjLookup (shapeEntry idx sh ps) "brep_file" = some (.str (stepName idx)) := rfl

lemma some_getD {o : Option JVal} (d : JVal) (h : o.isSome = true) :
    some (o.getD d) = o := by
  rcases o with _ | v
  · simp at h
  · rfl

/-- When every shape carries params accepted by the kernel, the save loop
succeeds, produces exactly the savedEntries metadata, and leaves every
project.json unchanged. -/
lemma saveShapes_ok (buildOk : JVal → Bool) (dir : String) :
    ∀ (shapes : List (List (String × JVal))) (idx : ℕ) (fs : FS),
      (∀ sh ∈ shapes, (alookup sh "params").isSome = true ∧
        buildOk ((alookup sh "params").getD .null) = true) →
      ∃ fs', saveShapes buildOk dir idx shapes fs =
          (fs', .ok (savedEntries idx shapes)) ∧
        ∀ d, fs' d "project.json" = fs d "project.json" := by
  intro shapes
  induction shapes with
  | nil => intro idx fs _; exact ⟨fs, rfl, fun d => rfl⟩
  | cons sh rest ih =>
    intro idx fs hgood
    obtain ⟨hps, hbuild⟩ := hgood sh (List.mem_cons_self _ _)
    rcases Option.isSome_iff_exists.mp hps with ⟨ps, hval⟩
    rw [hval, Option.getD_some] at hbuild
    obtain ⟨fs', heq, hpres⟩ := ih (idx + 1)
      (fsWrite fs dir (stepName idx) (.stepFile ps))
      (fun s hs => hgood s (List.mem_cons_of_mem _ hs))
    refine ⟨fs', ?_, ?_⟩
    · rw [saveShapes, hval]
      simp only [hbuild, if_true, heq]
      rw [savedEntries, hval, Option.getD_some]
    · intro d
      rw [hpres d]
      exact fsWrite_ne _ _ _ _ _ _ fun hc => stepName_ne_projectJson idx hc.2.symm

end RoundTripLemmas

/-- C1: round trip. For every project whose shape dicts all carry params,
position, rotation and prompt keys (and whose params the kernel accepts),
save_project followed by load_project of the same name returns a shapes list
of the same length whose i-th entry has params, position, rotation and prompt
identical to the i-th input shape, and whose brep_file is "shape_<i>.step"
with i the zero-based position in save order. -/
theorem save_load_round_trip (buildOk : JVal → Bool) (fs : FS) (name : String)
    (shapes : List (List (String × JVal)))
    (hgood : ∀ sh ∈ shapes,
      (alookup sh "params").isSome = true ∧
      (alookup sh "position").isSome = true ∧
      (alookup sh "rotation").isSome = true ∧
      (alookup sh "prompt").isSome = true ∧
      buildOk ((alookup sh "params").getD .null) = true) :
    ∃ entries : List JVal,
      load_project (save_project buildOk fs ⟨name, shapes⟩).1 name =
        .ok (.obj [("success", .bool true), ("shapes", .arr entries)]) ∧
      entries.length = shapes.length ∧
      (∀ i (hi : i < shapes.length) (hi' : i < entries.length),
        jObjLookup (entries.get ⟨i, hi'⟩) "params" =
          alookup (shapes.get ⟨i, hi⟩) "params" ∧
        jObjLookup (entries.get ⟨i, hi'⟩) "position" =
          alookup (shapes.get ⟨i, hi⟩) "position" ∧
        jObjLookup (entries.get ⟨i, hi'⟩) "rotation" =
          alookup (shapes.get ⟨i, hi⟩) "rotation" ∧
        jObjLookup (entries.get ⟨i, hi'⟩) "prompt" =
          alookup (shapes.get ⟨i, hi⟩) "prompt" ∧
        jObjLookup (entries.get ⟨i, hi'⟩) "brep_file" =
          some (.str ("shape_" ++ toString i ++ ".step"))) := by
  obtain ⟨fs', heq, _⟩ := saveShapes_ok buildOk (projectDir name) shapes 0 fs
    (fun sh hs => ⟨(hgood sh hs).1, (hgood sh hs).2.2.2.2⟩)
  refine ⟨savedEntries 0 shapes, ?_, savedEntries_length shapes 0, ?_⟩
  · simp only [save_project, heq]
    rw [load_project]
    rw [fsWrite_same]
    rfl
  · intro i hi hi'
    rw [savedEntries_get shapes 0 i hi hi']
    obtain ⟨-, hpos, hrot, hpr, -⟩ := hgood (shapes.get ⟨i, hi⟩) (List.get_mem _ _ _)
    have hps := (hgood (shapes.get ⟨i, hi⟩) (List.get_mem _ _ _)).1
    refine ⟨?_, ?_, ?_, ?_, ?_⟩
    · rw [shapeEntry_params]
      exact some_getD _ hps
    · rw [shapeEntry_position]
      exact some_getD _ hpos
    · rw [shapeEntry_rotation]
      exact some_getD _ hrot
    · rw [shapeEntry_prompt]
      exact some_getD _ hpr
    · rw [shapeEntry_brep, Nat.zero_add]
      rfl

/-- Witness for C1: a one-shape project round-trips: the loaded entry has
the saved params, position, rotation and prompt and brep_file shape_0.step. -/
theorem save_load_round_trip_witness :
    ∃ entries : List JVal,
      load_project (save_project (fun _ => true) (fun _ _ => none)
          ⟨"p", [[("params", JVal.num 1),
                  ("position", JVal.arr [JVal.num 1, JVal.num 2, JVal.num 3]),
                  ("rotation", JVal.arr [JVal.num 0, JVal.num 0, JVal.num 0]),
                  ("prompt", JVal.str "a box")]]⟩).1 "p" =
        .ok (.obj [("success", .bool true), ("shapes", .arr entries)]) ∧
      entries.length = 1 ∧
      (∀ i (hi : i < 1) (hi' : i < entries.length),
        jObjLookup (entries.get ⟨i, hi'⟩) "params" =
          alookup ([[("params", JVal.num 1),
                  ("position", JVal.arr [JVal.num 1, JVal.num 2, JVal.num 3]),
                  ("rotation", JVal.arr [JVal.num 0, JVal.num 0, JVal.num 0]),
                  ("prompt", JVal.str "a box")]].get ⟨i, hi⟩) "params" ∧
        jObjLookup (entries.get ⟨i, hi'⟩) "position" =
          alookup ([[("params", JVal.num 1),
                  ("position", JVal.arr [JVal.num 1, JVal.num 2, JVal.num 3]),
                  ("rotation", JVal.arr [JVal.num 0, JVal.num 0, JVal.num 0]),
                  ("prompt", JVal.str "a box")]].get ⟨i, hi⟩) "position" ∧
        jObjLookup (entries.get ⟨i, hi'⟩) "rotation" =
          alookup ([[("params", JVal.num 1),
                  ("position", JVal.arr [JVal.num 1, JVal.num 2, JVal.num 3]),
                  ("rotation", JVal.arr [JVal.num 0, JVal.num 0, JVal.num 0]),
                  ("prompt", JVal.str "a box")]].get ⟨i, hi⟩) "rotation" ∧
        jObjLookup (entries.get ⟨i, hi'⟩) "prompt" =
          alookup ([[("params", JVal.num 1),
                  ("position", JVal.arr [JVal.num 1, JVal.num 2, JVal.num 3]),
                  ("rotation", JVal.arr [JVal.num 0, JVal.num 0, JVal.num 0]),
                  ("prompt", JVal.str "a box")]].get ⟨i, hi⟩) "prompt" ∧
        jObjLookup (entries.get ⟨i, hi'⟩) "brep_file" =
          some (.str ("shape_" ++ toString i ++ ".step"))) :=
  save_load_round_trip (fun _ => true) (fun _ _ => none) "p"
    [[("params", JVal.num 1),
      ("position", JVal.arr [JVal.num 1, JVal.num 2, JVal.num 3]),
      ("rotation", JVal.arr [JVal.num 0, JVal.num 0, JVal.num 0]),
      ("prompt", JVal.str "a box")]]
    (by intro sh hs; simp only [List.mem_singleton] at hs; subst hs; exact
      ⟨rfl, rfl, rfl, rfl, rfl⟩)
